import Mathlib

/-!
Shallow embedding of the MCP2210 USB-to-SPI protocol core (`src/lib.rs`,
`src/cmds.rs`, `src/types.rs`, `src/utils.rs` of the `mcp2210` crate).

Modelling conventions:
* a 64-byte report (`[u8; 64]`, `type Buffer` in the source) is a function
  `Nat → Nat`; only indices 0..63 are ever read, and all stored values are
  below 256 on every path exercised here;
* machine integers are `Nat` with explicit `% 256` / `% 2 ^ 16` truncation
  where the source performs an `as u8` style cast;
* Rust `Result` is `Except`; a Rust panic (out-of-bounds slice indexing,
  `copy_from_slice` length mismatch) is the `none` value of an outer
  `Option` layer;
* the HID transport is a `Transport` state: the list of 64-byte command
  frames written so far plus the list of response frames the device will
  deliver.  A read with no response left models a transport failure and is
  surfaced as the `ioError` value, exactly as `read_exact` failure is in the
  source.
-/

namespace Mcp2210

/-- Model of the Rust `pub type Buffer = [u8; 64]`. -/
def Buffer := Nat → Nat

/-- Model of `[0; 64]`: an all-zero frame. -/
def zeroBuffer : Buffer := fun _ => 0

/-- Model of `buf[i] = v`: write one byte of a frame. -/
def setByte (buf : Buffer) (i v : Nat) : Buffer := fun j => if j = i then v else buf j

/-- Build a frame from an explicit byte list (missing bytes are zero),
used to write down concrete device responses. -/
def bufferOfList (l : List Nat) : Buffer := fun i => l.getD i 0

/-- Model of `utils::as_bool`. -/
def as_bool (v : Nat) : Except Nat Bool :=
  if v = 0 then .ok false else if v = 1 then .ok true else .error v

/-- Model of `utils::as_u16`: `(u16::from(b) << 8) | u16::from(a)`. -/
def as_u16 (a b : Nat) : Nat := (b <<< 8) ||| a

/-- Model of `utils::as_u32` (little-endian byte composition). -/
def as_u32 (a b c d : Nat) : Nat := (d <<< 24) ||| (c <<< 16) ||| (b <<< 8) ||| a

/-- Decidable equality for `Except`, used to evaluate concrete runs. -/
instance [DecidableEq ε] [DecidableEq α] : DecidableEq (Except ε α)
  | .error a, .error b => decidable_of_iff (a = b) ⟨fun h => h ▸ rfl, Except.error.inj⟩
  | .error _, .ok _ => isFalse fun h => Except.noConfusion h
  | .ok _, .error _ => isFalse fun h => Except.noConfusion h
  | .ok a, .ok b => decidable_of_iff (a = b) ⟨fun h => h ▸ rfl, Except.ok.inj⟩

/-- Model of Rust `e.map_err(f)` on a `Result`. -/
def mapErr (x : Except α β) (f : α → γ) : Except γ β :=
  match x with
  | .ok b => .ok b
  | .error a => .error (f a)

/-- Model of the `?` operator: bind on `Result`. -/
def eBind (x : Except ε α) (f : α → Except ε β) : Except ε β :=
  match x with
  | .error e => .error e
  | .ok a => f a

/-- Model of `types::BusOwner`. -/
inductive BusOwner where
  | none
  | usbBridge
  | externalMaster
deriving DecidableEq

/-- Model of `BusOwner::from_u8`. -/
def BusOwner.from_u8 (v : Nat) : Except Nat BusOwner :=
  if v = 0x00 then .ok .none
  else if v = 0x01 then .ok .usbBridge
  else if v = 0x02 then .ok .externalMaster
  else .error v

/-- Model of `types::ChipStatus`. -/
structure ChipStatus where
  is_bus_release_pending : Bool
  bus_owner : BusOwner
  password_attempt_count : Nat
  is_password_guessed : Bool
deriving DecidableEq

/-- Model of `ChipStatus::from_buffer`.  The source formats decode failures
into a `String`; here an invalid field is reported structurally as the pair
(field name, offending raw byte). -/
def ChipStatus.from_buffer (buf : Buffer) : Except (String × Nat) ChipStatus :=
  eBind (mapErr (as_bool (buf 2)) (fun v => ("is_bus_release_pending", v))) fun p =>
  eBind (mapErr (BusOwner.from_u8 (buf 3)) (fun v => ("bus_owner", v))) fun owner =>
  eBind (mapErr (as_bool (buf 5)) (fun v => ("is_password_guessed", v))) fun guessed =>
  .ok { is_bus_release_pending := !p
        bus_owner := owner
        password_attempt_count := buf 4
        is_password_guessed := guessed }

/-- Model of `types::PinMode`. -/
inductive PinMode where
  | gpio
  | chipSelect
  | dedicated
deriving DecidableEq

/-- Model of the Rust `as u8` cast of a `PinMode` (its discriminant). -/
def PinMode.toU8 : PinMode → Nat
  | .gpio => 0x00
  | .chipSelect => 0x01
  | .dedicated => 0x02

/-- Model of `PinMode::from_u8`. -/
def PinMode.from_u8 (v : Nat) : Except Nat PinMode :=
  if v = 0x00 then .ok .gpio
  else if v = 0x01 then .ok .chipSelect
  else if v = 0x02 then .ok .dedicated
  else .error v

/-- Model of `types::UsbPowerOption`. -/
inductive UsbPowerOption where
  | selfPowered
  | hostPowered
deriving DecidableEq

/-- Discriminant of `UsbPowerOption` (`SelfPowered = 0b01`, `HostPowered = 0b10`). -/
def UsbPowerOption.toU8 : UsbPowerOption → Nat
  | .selfPowered => 0b01
  | .hostPowered => 0b10

/-- Model of `UsbPowerOption::from_u8`. -/
def UsbPowerOption.from_u8 (v : Nat) : Except Nat UsbPowerOption :=
  if v = 0b10 then .ok .hostPowered
  else if v = 0b01 then .ok .selfPowered
  else .error v

/-- Model of `types::UsbParameters`.  The `u16` / `u8` fields become `Nat`. -/
structure UsbParameters where
  vid : Nat
  pid : Nat
  power_option : UsbPowerOption
  remote_wakeup_capable : Bool
  requested_current : Nat
deriving DecidableEq

/-- Model of `UsbParameters::from_buffer` (reads the GET-response layout:
bytes 12-15, 29, 30). -/
def UsbParameters.from_buffer (buf : Buffer) : Except (String × Nat) UsbParameters :=
  eBind (mapErr (UsbPowerOption.from_u8 (buf 29 >>> 6)) (fun v => ("power_option", v))) fun po =>
  .ok { vid := as_u16 (buf 12) (buf 13)
        pid := as_u16 (buf 14) (buf 15)
        power_option := po
        remote_wakeup_capable := buf 29 &&& 0b100000 != 0
        requested_current := buf 30 }

/-- Model of `UsbParameters::write_to_buffer` (writes the SET-command layout:
bytes 4-9). -/
def UsbParameters.write_to_buffer (s : UsbParameters) (buf : Buffer) : Buffer :=
  setByte (setByte (setByte (setByte (setByte (setByte buf
    4 (s.vid % 256))
    5 ((s.vid >>> 8) % 256))
    6 (s.pid % 256))
    7 ((s.pid >>> 8) % 256))
    8 ((s.power_option.toU8 <<< 6) ||| (if s.remote_wakeup_capable then 0b100000 else 0)))
    9 s.requested_current

/-- Model of `types::NvramAccessControl`. -/
inductive NvramAccessControl where
  | none
  | password
  | permanentlyLocked
deriving DecidableEq

/-- Discriminant of `NvramAccessControl`. -/
def NvramAccessControl.toU8 : NvramAccessControl → Nat
  | .none => 0x00
  | .password => 0x40
  | .permanentlyLocked => 0x80

/-- Model of `NvramAccessControl::from_u8`. -/
def NvramAccessControl.from_u8 (v : Nat) : Except Nat NvramAccessControl :=
  if v = 0x00 then .ok .none
  else if v = 0x40 then .ok .password
  else if v = 0x80 then .ok .permanentlyLocked
  else .error v

/-- Model of `types::InterruptMode`. -/
inductive InterruptMode where
  | none
  | fallingEdges
  | risingEdges
  | lowPulses
  | highPulses
deriving DecidableEq

/-- Discriminant of `InterruptMode`. -/
def InterruptMode.toU8 : InterruptMode → Nat
  | .none => 0b000
  | .fallingEdges => 0b001
  | .risingEdges => 0b010
  | .lowPulses => 0b011
  | .highPulses => 0b100

/-- Model of `InterruptMode::from_u8`. -/
def InterruptMode.from_u8 (v : Nat) : Except Nat InterruptMode :=
  if v = 0b100 then .ok .highPulses
  else if v = 0b011 then .ok .lowPulses
  else if v = 0b010 then .ok .risingEdges
  else if v = 0b001 then .ok .fallingEdges
  else if v = 0b000 then .ok .none
  else .error v

/-- Model of `GpioValue::from_bits_truncate`: the `bitflags` type defines
exactly bits 0-8, so truncation keeps `v &&& 0x1ff`.  A `GpioValue` value is
modelled by its raw bits (a `Nat` below 512). -/
def GpioValue.from_bits_truncate (v : Nat) : Nat := v &&& 0x1ff

/-- Model of `GpioDirection::from_bits_truncate` (bits 0-8). -/
def GpioDirection.from_bits_truncate (v : Nat) : Nat := v &&& 0x1ff

/-- Model of `ChipSelect::from_bits_truncate` (bits 0-8). -/
def ChipSelect.from_bits_truncate (v : Nat) : Nat := v &&& 0x1ff

/-- Model of `types::ChipSettings`.  The two `bitflags` fields are carried
as their raw bit patterns. -/
structure ChipSettings where
  gp0_mode : PinMode
  gp1_mode : PinMode
  gp2_mode : PinMode
  gp3_mode : PinMode
  gp4_mode : PinMode
  gp5_mode : PinMode
  gp6_mode : PinMode
  gp7_mode : PinMode
  gp8_mode : PinMode
  default_gpio_value : Nat
  default_gpio_direction : Nat
  remote_wakeup : Bool
  interrupt_mode : InterruptMode
  bus_release : Bool
  nvram_access_control : NvramAccessControl
deriving DecidableEq

/-- Model of `ChipSettings::from_buffer` (bytes 4-18; byte 17 packs the
remote-wakeup bit, the 3-bit interrupt mode at bit 1, and the inverted
bus-release bit). -/
def ChipSettings.from_buffer (buf : Buffer) : Except (String × Nat) ChipSettings :=
  eBind (mapErr (PinMode.from_u8 (buf 4)) (fun v => ("gp0_mode", v))) fun g0 =>
  eBind (mapErr (PinMode.from_u8 (buf 5)) (fun v => ("gp1_mode", v))) fun g1 =>
  eBind (mapErr (PinMode.from_u8 (buf 6)) (fun v => ("gp2_mode", v))) fun g2 =>
  eBind (mapErr (PinMode.from_u8 (buf 7)) (fun v => ("gp3_mode", v))) fun g3 =>
  eBind (mapErr (PinMode.from_u8 (buf 8)) (fun v => ("gp4_mode", v))) fun g4 =>
  eBind (mapErr (PinMode.from_u8 (buf 9)) (fun v => ("gp5_mode", v))) fun g5 =>
  eBind (mapErr (PinMode.from_u8 (buf 10)) (fun v => ("gp6_mode", v))) fun g6 =>
  eBind (mapErr (PinMode.from_u8 (buf 11)) (fun v => ("gp7_mode", v))) fun g7 =>
  eBind (mapErr (PinMode.from_u8 (buf 12)) (fun v => ("gp8_mode", v))) fun g8 =>
  eBind (mapErr (InterruptMode.from_u8 ((buf 17 >>> 1) &&& 0b111))
      (fun v => ("interrupt_mode", v))) fun im =>
  eBind (mapErr (NvramAccessControl.from_u8 (buf 18))
      (fun v => ("nvram_access_control", v))) fun nv =>
  .ok { gp0_mode := g0, gp1_mode := g1, gp2_mode := g2, gp3_mode := g3
        gp4_mode := g4, gp5_mode := g5, gp6_mode := g6, gp7_mode := g7
        gp8_mode := g8
        default_gpio_value := GpioValue.from_bits_truncate (as_u16 (buf 13) (buf 14))
        default_gpio_direction := GpioDirection.from_bits_truncate (as_u16 (buf 15) (buf 16))
        remote_wakeup := buf 17 &&& 0b10000 != 0
        interrupt_mode := im
        bus_release := buf 17 &&& 0b1 == 0
        nvram_access_control := nv }

/-- Model of `ChipSettings::write_to_buffer` (bytes 4-18). -/
def ChipSettings.write_to_buffer (s : ChipSettings) (buf : Buffer) : Buffer :=
  setByte (setByte (setByte (setByte (setByte (setByte (setByte (setByte
  (setByte (setByte (setByte (setByte (setByte (setByte (setByte buf
    4 s.gp0_mode.toU8)
    5 s.gp1_mode.toU8)
    6 s.gp2_mode.toU8)
    7 s.gp3_mode.toU8)
    8 s.gp4_mode.toU8)
    9 s.gp5_mode.toU8)
    10 s.gp6_mode.toU8)
    11 s.gp7_mode.toU8)
    12 s.gp8_mode.toU8)
    13 (s.default_gpio_value % 256))
    14 ((s.default_gpio_value >>> 8) % 256))
    15 (s.default_gpio_direction % 256))
    16 ((s.default_gpio_direction >>> 8) % 256))
    17 ((if s.remote_wakeup then 0b10000 else 0) ||| (s.interrupt_mode.toU8 <<< 1) |||
        (if s.bus_release then 0 else 0b1)))
    18 s.nvram_access_control.toU8

/-- Model of `types::SpiMode`. -/
inductive SpiMode where
  | mode0
  | mode1
  | mode2
  | mode3
deriving DecidableEq

/-- Discriminant of `SpiMode`. -/
def SpiMode.toU8 : SpiMode → Nat
  | .mode0 => 0x00
  | .mode1 => 0x01
  | .mode2 => 0x02
  | .mode3 => 0x03

/-- Model of `SpiMode::from_u8`. -/
def SpiMode.from_u8 (v : Nat) : Except Nat SpiMode :=
  if v = 0x00 then .ok .mode0
  else if v = 0x01 then .ok .mode1
  else if v = 0x02 then .ok .mode2
  else if v = 0x03 then .ok .mode3
  else .error v

/-- Model of `types::SpiTransferSettings`; `ChipSelect` bit-sets are carried
as raw bit patterns. -/
structure SpiTransferSettings where
  bit_rate : Nat
  cs_idle : Nat
  cs_active : Nat
  delay_cs_to_data : Nat
  delay_last_data_to_cs : Nat
  delay_between_data : Nat
  bytes_per_tx : Nat
  spi_mode : SpiMode
deriving DecidableEq

/-- Model of `SpiTransferSettings::from_buffer` (bytes 4-20). -/
def SpiTransferSettings.from_buffer (buf : Buffer) :
    Except (String × Nat) SpiTransferSettings :=
  eBind (mapErr (SpiMode.from_u8 (buf 20)) (fun v => ("spi_mode", v))) fun m =>
  .ok { bit_rate := as_u32 (buf 4) (buf 5) (buf 6) (buf 7)
        cs_idle := ChipSelect.from_bits_truncate (as_u16 (buf 8) (buf 9))
        cs_active := ChipSelect.from_bits_truncate (as_u16 (buf 10) (buf 11))
        delay_cs_to_data := as_u16 (buf 12) (buf 13)
        delay_last_data_to_cs := as_u16 (buf 14) (buf 15)
        delay_between_data := as_u16 (buf 16) (buf 17)
        bytes_per_tx := as_u16 (buf 18) (buf 19)
        spi_mode := m }

/-- Model of `SpiTransferSettings::write_to_buffer` (bytes 4-20). -/
def SpiTransferSettings.write_to_buffer (s : SpiTransferSettings) (buf : Buffer) : Buffer :=
  setByte (setByte (setByte (setByte (setByte (setByte (setByte (setByte
  (setByte (setByte (setByte (setByte (setByte (setByte (setByte (setByte
  (setByte buf
    4 (s.bit_rate % 256))
    5 ((s.bit_rate >>> 8) % 256))
    6 ((s.bit_rate >>> 16) % 256))
    7 ((s.bit_rate >>> 24) % 256))
    8 (s.cs_idle % 256))
    9 ((s.cs_idle >>> 8) % 256))
    10 (s.cs_active % 256))
    11 ((s.cs_active >>> 8) % 256))
    12 (s.delay_cs_to_data % 256))
    13 ((s.delay_cs_to_data >>> 8) % 256))
    14 (s.delay_last_data_to_cs % 256))
    15 ((s.delay_last_data_to_cs >>> 8) % 256))
    16 (s.delay_between_data % 256))
    17 ((s.delay_between_data >>> 8) % 256))
    18 (s.bytes_per_tx % 256))
    19 ((s.bytes_per_tx >>> 8) % 256))
    20 s.spi_mode.toU8

/-- Model of `types::SpiTransferStatus`. -/
inductive SpiTransferStatus where
  | started
  | pending
  | finished
deriving DecidableEq

/-- Model of `SpiTransferStatus::from_u8` (`Started = 0x20`, `Pending = 0x30`,
`Finished = 0x10`). -/
def SpiTransferStatus.from_u8 (v : Nat) : Except Nat SpiTransferStatus :=
  if v = 0x20 then .ok .started
  else if v = 0x30 then .ok .pending
  else if v = 0x10 then .ok .finished
  else .error v

/-- Model of `types::SpiTransferResponse`.  The source borrows a slice of the
response buffer; the model copies those bytes into a list. -/
structure SpiTransferResponse where
  data : List Nat
  status : SpiTransferStatus
deriving DecidableEq

/-- Model of `Mcp2210Error`.  The `Io` payload (`io::Error`) and the
`InvalidResponse` message are abstracted: `invalidResponse` keeps the field
name and offending byte that the source formats into its message string. -/
inductive Mcp2210Error where
  | ioError
  | commandCode (expected actual : Nat)
  | subCommandCode (expected actual : Nat)
  | invalidResponse (field : String) (value : Nat)
  | unknownErrorCode (code : Nat)
  | stringSize (size : Nat)
  | payloadSize (size : Nat)
  | transferStatus (status : SpiTransferStatus)
  | eepromWrite
  | accessDenied
  | accessRejected
  | accessDeniedRetry
  | unavailable
  | busy
  | unknownCommandCode (code : Nat)
deriving DecidableEq

/-- State of the external duplex HID channel: the command frames written so
far, and the response frames the device will deliver to subsequent reads. -/
structure Transport where
  written : List Buffer
  responses : List Buffer

/-- Model of one `write_all` + `read_exact` exchange
(`CommandResponse::command_response`).  The command frame is always written;
if the device has no response left the read fails, surfaced as an `ioError`
value exactly as the source maps `read_exact` failures. -/
def commandResponse (t : Transport) (cmd : Buffer) : Except Mcp2210Error Buffer × Transport :=
  match t.responses with
  | [] => (.error .ioError, { written := t.written ++ [cmd], responses := [] })
  | r :: rest => (.ok r, { written := t.written ++ [cmd], responses := rest })

/-- Model of `copy_from_slice` into `buf[start..stop]`: a length mismatch, or
a slice bound beyond the 64-byte frame, is a panic (`none`). -/
def copyFromSlice (buf : Buffer) (start stop : Nat) (src : List Nat) : Option Buffer :=
  if stop ≤ 64 ∧ start ≤ stop ∧ stop - start = src.length then
    some (fun j => if start ≤ j ∧ j < stop then src.getD (j - start) 0 else buf j)
  else none

/-- Model of reading the slice `&buf[start..][..len]` of a 64-byte frame:
`none` is the out-of-bounds panic. -/
def sliceBytes (buf : Buffer) (start len : Nat) : Option (List Nat) :=
  if start + len ≤ 64 then some ((List.range len).map fun i => buf (start + i)) else none

/-- Model of `Mcp2210::do_command` / `CommandResponse::do_command`: build a
zeroed frame, set byte 0 to the command code, run the caller's filler
(which may panic, hence `Option`), perform one exchange, check the echoed
command code, then map the status byte.  On success the filled response
buffer is returned. -/
def do_command (t : Transport) (cmdCode : Nat) (f : Buffer → Option Buffer) :
    Option (Except Mcp2210Error Buffer × Transport) :=
  match f (setByte zeroBuffer 0 cmdCode) with
  | none => none
  | some cmd =>
    match commandResponse t cmd with
    | (.error e, t') => some (.error e, t')
    | (.ok res, t') =>
      if cmdCode ≠ res 0 then
        some (.error (.commandCode cmdCode (res 0)), t')
      else if res 1 = 0x00 then some (.ok res, t')
      else if res 1 = 0xf7 then some (.error .unavailable, t')
      else if res 1 = 0xf8 then some (.error .busy, t')
      else if res 1 = 0xf9 then some (.error (.unknownCommandCode cmdCode), t')
      else if res 1 = 0xfa then some (.error .eepromWrite, t')
      else if res 1 = 0xfb then some (.error .accessDenied, t')
      else if res 1 = 0xfc then some (.error .accessRejected, t')
      else if res 1 = 0xfd then some (.error .accessDeniedRetry, t')
      else some (.error (.unknownErrorCode (res 1)), t')

/-- Model of `do_sub_command`: write the sub-command code into byte 1 before
the filler runs, and after a successful exchange check that response byte 2
echoes the sub-command code. -/
def do_sub_command (t : Transport) (cmdCode subCode : Nat) (f : Buffer → Option Buffer) :
    Option (Except Mcp2210Error Buffer × Transport) :=
  match do_command t cmdCode (fun cmd => f (setByte cmd 1 subCode)) with
  | none => none
  | some (.error e, t') => some (.error e, t')
  | some (.ok res, t') =>
    if res 2 ≠ subCode then some (.error (.subCommandCode subCode (res 2)), t')
    else some (.ok res, t')

/-- Model of `Mcp2210::get_chip_status` (command 0x10, empty filler). -/
def get_chip_status (t : Transport) : Option (Except Mcp2210Error ChipStatus × Transport) :=
  match do_command t 0x10 (fun cmd => some cmd) with
  | none => none
  | some (.error e, t') => some (.error e, t')
  | some (.ok res, t') =>
    some (mapErr (ChipStatus.from_buffer res) (fun fv => .invalidResponse fv.1 fv.2), t')

/-- Model of `Mcp2210::send_access_password` (command 0x70): the filler is
`cmd[4..11].copy_from_slice(password)` — a 7-byte destination slice. -/
def send_access_password (t : Transport) (password : List Nat) :
    Option (Except Mcp2210Error Buffer × Transport) :=
  do_command t 0x70 (fun cmd => copyFromSlice cmd 4 11 password)

/-- Model of `Mcp2210::spi_transfer` (command 0x42): reject payloads over 60
bytes before any I/O, send the chunk at offset 4 with its length in byte 1,
then read back `res[2]` bytes starting at offset 4 and the transfer status
from byte 3. -/
def spi_transfer (t : Transport) (data : List Nat) :
    Option (Except Mcp2210Error SpiTransferResponse × Transport) :=
  if data.length > 60 then some (.error (.payloadSize data.length), t)
  else
    let mosiLen := min data.length 60
    match do_command t 0x42 (fun cmd =>
        copyFromSlice (setByte cmd 1 mosiLen) 4 (4 + mosiLen) (data.take mosiLen)) with
    | none => none
    | some (.error e, t') => some (.error e, t')
    | some (.ok res, t') =>
      let misoLen := res 2
      match sliceBytes res 4 misoLen with
      | none => none
      | some d =>
        match SpiTransferStatus.from_u8 (res 3) with
        | .error v => some (.error (.invalidResponse "spi_transfer_status" v), t')
        | .ok s => some (.ok { data := d, status := s }, t')

/-- Model of the `loop` in `Mcp2210::spi_transfer_to_end` (the Continue
phase).  `fuel` bounds the number of iterations; `none` covers both a panic
and running out of fuel (the source loops without bound).  A `Busy` error
leaves the cursor `data` and the accumulator `buf` untouched and retries;
any other error aborts; on success the returned bytes are appended, the
cursor advances, and a `Finished` status ends the loop. -/
def spiTransferLoop (fuel : Nat) (t : Transport) (data buf : List Nat) :
    Option (Except Mcp2210Error (List Nat) × Transport) :=
  match fuel with
  | 0 => none
  | fuel + 1 =>
    let len := min data.length 60
    match spi_transfer t (data.take len) with
    | none => none
    | some (.error e, t') =>
      if e = .busy then spiTransferLoop fuel t' data buf
      else some (.error e, t')
    | some (.ok res, t') =>
      let data' := data.drop len
      let buf' := buf ++ res.data
      if res.status = .finished then some (.ok buf', t')
      else spiTransferLoop fuel t' data' buf'

/-- Model of `Mcp2210::spi_transfer_to_end`: send the first chunk, require a
`Started` status (any error of the first exchange, including `Busy`, is
propagated by `?`), then enter the Continue loop with the advanced cursor. -/
def spi_transfer_to_end (fuel : Nat) (t : Transport) (data buf : List Nat) :
    Option (Except Mcp2210Error (List Nat) × Transport) :=
  let len := min data.length 60
  match spi_transfer t (data.take len) with
  | none => none
  | some (.error e, t') => some (.error e, t')
  | some (.ok res, t') =>
    let data' := data.drop len
    if res.status ≠ .started then some (.error (.transferStatus res.status), t')
    else spiTransferLoop fuel t' data' buf

/-- Model of Rust `str::encode_utf16` over a string given as its list of
Unicode scalar values: a scalar below 0x10000 yields one code unit, any
other scalar yields a surrogate pair. -/
def encodeUtf16 : List Nat → List Nat
  | [] => []
  | c :: rest =>
    (if c < 0x10000 then [c]
     else [0xd800 + (c - 0x10000) / 0x400, 0xdc00 + (c - 0x10000) % 0x400]) ++
    encodeUtf16 rest

/-- Model of `utils::encode_utf16_to_buffer` writing into `cmd[6..]`: each
code unit is stored little-endian at `idx`, `idx + 1`; running past the end
of the 64-byte frame is a panic. -/
def encode_utf16_to_buffer : List Nat → Nat → Buffer → Option Buffer
  | [], _, buf => some buf
  | u :: rest, idx, buf =>
    if idx + 1 < 64 then
      encode_utf16_to_buffer rest (idx + 2)
        (setByte (setByte buf idx (u % 256)) (idx + 1) ((u >>> 8) % 256))
    else none

/-- Model of `Mcp2210::set_nvram_usb_product_name` (command 0x60, sub 0x40):
reject names longer than 29 UTF-16 code units before any I/O, otherwise
write the length prefix (`size * 2 + 2`, as `u8`), the marker byte 0x03, and
the encoded code units starting at offset 6. -/
def set_nvram_usb_product_name (t : Transport) (name : List Nat) :
    Option (Except Mcp2210Error Buffer × Transport) :=
  let size := (encodeUtf16 name).length
  if size > 29 then some (.error (.stringSize size), t)
  else
    do_sub_command t 0x60 0x40 (fun cmd =>
      encode_utf16_to_buffer (encodeUtf16 name) 6
        (setByte (setByte cmd 4 (((size % 256) * 2 + 2) % 256)) 5 0x03))

/-- Model of `Mcp2210::set_nvram_usb_vendor_name` (command 0x60, sub 0x50). -/
def set_nvram_usb_vendor_name (t : Transport) (name : List Nat) :
    Option (Except Mcp2210Error Buffer × Transport) :=
  let size := (encodeUtf16 name).length
  if size > 29 then some (.error (.stringSize size), t)
  else
    do_sub_command t 0x60 0x50 (fun cmd =>
      encode_utf16_to_buffer (encodeUtf16 name) 6
        (setByte (setByte cmd 4 (((size % 256) * 2 + 2) % 256)) 5 0x03))

/-- Model of the `chunks(2)` loop of the NVRAM string getters: each complete
2-byte chunk becomes `as_u16 chunk[0] chunk[1]`; a trailing 1-byte chunk
makes the `chunk[1]` access a panic (`none`). -/
def chunkPairs : List Nat → Option (List Nat)
  | [] => some []
  | [_] => none
  | a :: b :: rest => (chunkPairs rest).map fun us => as_u16 a b :: us

/-- Model of `Mcp2210::get_nvram_usb_product_name` (command 0x61, sub 0x40).
`res[4] - 2` is `u8` subtraction; it is modelled with release (wrapping)
semantics — a debug build panics right at the subtraction when `res[4] < 2`,
a release build wraps and then panics on the out-of-bounds slice, so both
end in a panic (`none`).  The source's final `String::from_utf16_lossy` is
abstracted: the result is the list of decoded UTF-16 code units. -/
def get_nvram_usb_product_name (t : Transport) :
    Option (Except Mcp2210Error (List Nat) × Transport) :=
  match do_sub_command t 0x61 0x40 (fun cmd => some cmd) with
  | none => none
  | some (.error e, t') => some (.error e, t')
  | some (.ok res, t') =>
    let strBytes := (res 4 + 254) % 256
    let strChars := strBytes / 2
    match sliceBytes res 6 strBytes with
    | none => none
    | some bytes =>
      match chunkPairs bytes with
      | none => none
      | some units => some (.ok (units.take strChars), t')

/-- Model of `Mcp2210::get_nvram_usb_vendor_name` (command 0x61, sub 0x50);
the body matches `get_nvram_usb_product_name`. -/
def get_nvram_usb_vendor_name (t : Transport) :
    Option (Except Mcp2210Error (List Nat) × Transport) :=
  match do_sub_command t 0x61 0x50 (fun cmd => some cmd) with
  | none => none
  | some (.error e, t') => some (.error e, t')
  | some (.ok res, t') =>
    let strBytes := (res 4 + 254) % 256
    let strChars := strBytes / 2
    match sliceBytes res 6 strBytes with
    | none => none
    | some bytes =>
      match chunkPairs bytes with
      | none => none
      | some units => some (.ok (units.take strChars), t')

/-- Sanity check from the source's unit tests: `as_u16(0xaa, 0x55)`. -/
theorem as_u16_test : as_u16 0xaa 0x55 = 0x55aa := by decide

/-- Sanity check from the source's unit tests: `as_u32(0x11, 0x22, 0x33, 0x44)`. -/
theorem as_u32_test : as_u32 0x11 0x22 0x33 0x44 = 0x44332211 := by decide

/-- Helper: bitwise or is addition when the low `k` bits of the left operand
are clear and the right operand fits in `k` bits. -/
theorem lor_eq_add_of_lt (k x y : Nat) (hx : x % 2 ^ k = 0) (hy : y < 2 ^ k) :
    x ||| y = x + y := by
  obtain ⟨q, rfl⟩ : 2 ^ k ∣ x := Nat.dvd_of_mod_eq_zero hx
  apply Nat.eq_of_testBit_eq
  intro i
  rcases Nat.lt_or_ge i k with hik | hik
  · have hsplit : (2 : Nat) ^ k = 2 ^ i * 2 ^ (k - i) := by
      rw [← pow_add]
      congr 1
      omega
    have hkio : (2 : Nat) ^ (k - i) = 2 * 2 ^ (k - i - 1) := by
      rw [← pow_succ']
      congr 1
      omega
    have hdiv : (2 ^ k * q + y) / 2 ^ i = 2 ^ (k - i) * q + y / 2 ^ i := by
      rw [hsplit, Nat.mul_assoc, Nat.mul_add_div (Nat.two_pow_pos i)]
    have hdiv0 : (2 ^ k * q) / 2 ^ i = 2 ^ (k - i) * q := by
      rw [hsplit, Nat.mul_assoc, Nat.mul_div_cancel_left _ (Nat.two_pow_pos i)]
    have hmod : (2 ^ (k - i) * q + y / 2 ^ i) % 2 = y / 2 ^ i % 2 := by
      rw [hkio, Nat.mul_assoc, Nat.mul_add_mod]
    have hmod0 : (2 ^ (k - i) * q) % 2 = 0 := by
      rw [hkio, Nat.mul_assoc, Nat.mul_mod_right]
    have tx : Nat.testBit (2 ^ k * q) i = false := by
      simp [Nat.testBit_to_div_mod, hdiv0, hmod0]
    have txy : Nat.testBit (2 ^ k * q + y) i = Nat.testBit y i := by
      simp [Nat.testBit_to_div_mod, hdiv, hmod]
    rw [Nat.testBit_or, tx, txy, Bool.false_or]
  · have hy_i : Nat.testBit y i = false :=
      Nat.testBit_lt_two_pow
        (Nat.lt_of_lt_of_le hy (Nat.pow_le_pow_right (by norm_num) hik))
    have hsplit : (2 : Nat) ^ i = 2 ^ k * 2 ^ (i - k) := by
      rw [← pow_add]
      congr 1
      omega
    have h1 : (2 ^ k * q + y) / 2 ^ i = q / 2 ^ (i - k) := by
      rw [hsplit, ← Nat.div_div_eq_div_mul, Nat.mul_add_div (Nat.two_pow_pos k),
        Nat.div_eq_of_lt hy, Nat.add_zero]
    have h2 : (2 ^ k * q) / 2 ^ i = q / 2 ^ (i - k) := by
      rw [hsplit, ← Nat.div_div_eq_div_mul, Nat.mul_div_cancel_left q (Nat.two_pow_pos k)]
    have txy : Nat.testBit (2 ^ k * q + y) i = Nat.testBit (2 ^ k * q) i := by
      simp [Nat.testBit_to_div_mod, h1, h2]
    rw [Nat.testBit_or, txy, hy_i, Bool.or_false]

/-- Helper: `as_u16` recomposes two in-range bytes arithmetically. -/
theorem as_u16_bytes (a b : Nat) (ha : a < 256) : as_u16 a b = b * 256 + a := by
  rw [as_u16, Nat.shiftLeft_eq]
  rw [lor_eq_add_of_lt 8 (b * 2 ^ 8) a (Nat.mul_mod_left b (2 ^ 8)) (by norm_num; omega)]
  norm_num

/-- Helper: `as_u32` recomposes four in-range bytes arithmetically. -/
theorem as_u32_bytes (a b c d : Nat) (ha : a < 256) (hb : b < 256) (hc : c < 256) :
    as_u32 a b c d = d * 16777216 + c * 65536 + b * 256 + a := by
  rw [as_u32, Nat.shiftLeft_eq, Nat.shiftLeft_eq, Nat.shiftLeft_eq]
  rw [lor_eq_add_of_lt 24 (d * 2 ^ 24) (c * 2 ^ 16) (Nat.mul_mod_left d (2 ^ 24))
    (by norm_num; omega)]
  rw [lor_eq_add_of_lt 16 (d * 2 ^ 24 + c * 2 ^ 16) (b * 2 ^ 8) (by norm_num; omega)
    (by norm_num; omega)]
  rw [lor_eq_add_of_lt 8 (d * 2 ^ 24 + c * 2 ^ 16 + b * 2 ^ 8) a (by norm_num; omega) ha]
  norm_num

/-- Helper: splitting a 16-bit value into low/high bytes and recomposing it
with `as_u16` is the identity. -/
theorem as_u16_split (v : Nat) (h : v < 65536) :
    as_u16 (v % 256) ((v >>> 8) % 256) = v := by
  rw [Nat.shiftRight_eq_div_pow]
  rw [as_u16_bytes _ _ (Nat.mod_lt _ (by norm_num))]
  norm_num
  omega

/-- Helper: splitting a 32-bit value into four bytes and recomposing it with
`as_u32` is the identity. -/
theorem as_u32_split (v : Nat) (h : v < 4294967296) :
    as_u32 (v % 256) ((v >>> 8) % 256) ((v >>> 16) % 256) ((v >>> 24) % 256) = v := by
  rw [Nat.shiftRight_eq_div_pow, Nat.shiftRight_eq_div_pow, Nat.shiftRight_eq_div_pow]
  rw [as_u32_bytes _ _ _ _ (Nat.mod_lt _ (by norm_num)) (Nat.mod_lt _ (by norm_num))
    (Nat.mod_lt _ (by norm_num))]
  norm_num
  omega

/-- Helper: masking with the nine defined flag bits. -/
theorem and_511_eq_mod (x : Nat) : x &&& 511 = x % 512 := by
  have h := Nat.and_pow_two_sub_one_eq_mod x 9
  norm_num at h
  exact h

/-- Helper: 9-bit flag sets survive the byte split, `as_u16`, and the
`from_bits_truncate` mask. -/
theorem mask511_roundtrip (v : Nat) (h : v < 512) :
    as_u16 (v % 256) ((v >>> 8) % 256) &&& 511 = v := by
  rw [as_u16_split v (by omega), and_511_eq_mod, Nat.mod_eq_of_lt h]

/-- Helper: decoding a `PinMode` discriminant recovers the mode. -/
theorem pinMode_from_u8_toU8 (m : PinMode) : PinMode.from_u8 m.toU8 = .ok m := by
  cases m <;> rfl

/-- Helper: decoding an `NvramAccessControl` discriminant recovers it. -/
theorem nvramAccessControl_from_u8_toU8 (v : NvramAccessControl) :
    NvramAccessControl.from_u8 v.toU8 = .ok v := by
  cases v <;> rfl

/-- Helper: decoding a `SpiMode` discriminant recovers it. -/
theorem spiMode_from_u8_toU8 (m : SpiMode) : SpiMode.from_u8 m.toU8 = .ok m := by
  cases m <;> rfl

/-- Helper: the interrupt mode packed into bits 1-3 of byte 17 decodes back. -/
theorem byte17_interrupt (w br : Bool) (im : InterruptMode) :
    InterruptMode.from_u8
        ((((if w then 16 else 0) ||| (im.toU8 <<< 1) ||| (if br then 0 else 1)) >>> 1) &&& 7) =
      .ok im := by
  cases w <;> cases br <;> cases im <;> rfl

/-- Helper: bit 4 of byte 17 decodes back to the remote-wakeup flag. -/
theorem byte17_wakeup (w br : Bool) (im : InterruptMode) :
    (((if w then 16 else 0) ||| (im.toU8 <<< 1) ||| (if br then 0 else 1)) &&& 16 != 0) = w := by
  cases w <;> cases br <;> cases im <;> rfl

/-- Helper: the inverted low bit of byte 17 decodes back to the bus-release
flag. -/
theorem byte17_bus_release (w br : Bool) (im : InterruptMode) :
    (((if w then 16 else 0) ||| (im.toU8 <<< 1) ||| (if br then 0 else 1)) &&& 1 == 0) = br := by
  cases w <;> cases br <;> cases im <;> rfl

/-- Helper: variant of the bus-release fact with the low bit expressed as a
parity, the form `simp` normalises `&&& 1` into. -/
theorem byte17_bus_release_mod (w br : Bool) (im : InterruptMode) :
    (((if w then 16 else 0) ||| (im.toU8 <<< 1) ||| (if br then 0 else 1)) % 2 == 0) = br := by
  cases w <;> cases br <;> cases im <;> rfl

/-- Helper: the `ChipSettings` encode/decode round trip over a zeroed frame. -/
theorem chip_settings_roundtrip (s : ChipSettings)
    (hv : s.default_gpio_value < 512) (hd : s.default_gpio_direction < 512) :
    ChipSettings.from_buffer (s.write_to_buffer zeroBuffer) = .ok s := by
  obtain ⟨g0, g1, g2, g3, g4, g5, g6, g7, g8, v, d, w, im, br, nv⟩ := s
  simp only at hv hd
  simp [ChipSettings.write_to_buffer, ChipSettings.from_buffer, setByte, zeroBuffer,
    eBind, mapErr, pinMode_from_u8_toU8, byte17_interrupt, byte17_wakeup, byte17_bus_release,
    byte17_bus_release_mod, nvramAccessControl_from_u8_toU8, GpioValue.from_bits_truncate,
    GpioDirection.from_bits_truncate, mask511_roundtrip v hv, mask511_roundtrip d hd]

/-- Helper: the `SpiTransferSettings` encode/decode round trip over a zeroed
frame. -/
theorem spi_settings_roundtrip (s : SpiTransferSettings)
    (h1 : s.bit_rate < 4294967296) (h2 : s.cs_idle < 512) (h3 : s.cs_active < 512)
    (h4 : s.delay_cs_to_data < 65536) (h5 : s.delay_last_data_to_cs < 65536)
    (h6 : s.delay_between_data < 65536) (h7 : s.bytes_per_tx < 65536) :
    SpiTransferSettings.from_buffer (s.write_to_buffer zeroBuffer) = .ok s := by
  obtain ⟨br, ci, ca, d1, d2, d3, bpt, m⟩ := s
  simp only at h1 h2 h3 h4 h5 h6 h7
  simp [SpiTransferSettings.write_to_buffer, SpiTransferSettings.from_buffer, setByte,
    zeroBuffer, eBind, mapErr, spiMode_from_u8_toU8, ChipSelect.from_bits_truncate,
    as_u32_split br h1, mask511_roundtrip ci h2, mask511_roundtrip ca h3,
    as_u16_split d1 h4, as_u16_split d2 h5, as_u16_split d3 h6, as_u16_split bpt h7]

/-- C5: for every `ChipSettings` value and every `SpiTransferSettings` value
constructed from the legal domain (pin modes, interrupt mode, NVRAM access
control and SPI mode from their enumerations; GPIO and chip-select bit-sets
confined to bits 0-8; numeric fields within their machine-integer ranges),
decoding a zeroed 64-byte buffer written by `write_to_buffer` yields `Ok` of
a value equal to the original — including the inverted bus-release bit and
the 3-bit interrupt-mode packing in byte 17. -/
theorem settings_roundtrip_law :
    (∀ s : ChipSettings, s.default_gpio_value < 512 → s.default_gpio_direction < 512 →
      ChipSettings.from_buffer (s.write_to_buffer zeroBuffer) = .ok s) ∧
    (∀ s : SpiTransferSettings, s.bit_rate < 4294967296 → s.cs_idle < 512 →
      s.cs_active < 512 → s.delay_cs_to_data < 65536 → s.delay_last_data_to_cs < 65536 →
      s.delay_between_data < 65536 → s.bytes_per_tx < 65536 →
      SpiTransferSettings.from_buffer (s.write_to_buffer zeroBuffer) = .ok s) :=
  ⟨chip_settings_roundtrip, spi_settings_roundtrip⟩

/-- Witness for C5 at concrete settings values. -/
theorem settings_roundtrip_law_witness :
    ChipSettings.from_buffer (ChipSettings.write_to_buffer
      ⟨.gpio, .chipSelect, .dedicated, .gpio, .gpio, .chipSelect, .gpio, .gpio, .gpio,
        426, 341, true, .highPulses, false, .password⟩ zeroBuffer) =
      .ok ⟨.gpio, .chipSelect, .dedicated, .gpio, .gpio, .chipSelect, .gpio, .gpio, .gpio,
        426, 341, true, .highPulses, false, .password⟩ ∧
    SpiTransferSettings.from_buffer (SpiTransferSettings.write_to_buffer
      ⟨12000000, 511, 0, 100, 200, 300, 4, .mode3⟩ zeroBuffer) =
      .ok ⟨12000000, 511, 0, 100, 200, 300, 4, .mode3⟩ :=
  ⟨settings_roundtrip_law.1 _ (by decide) (by decide),
   settings_roundtrip_law.2 _ (by decide) (by decide) (by decide) (by decide) (by decide)
     (by decide) (by decide)⟩

/-- C2 counterexample: the claimed `UsbParameters` round-trip law fails at
the crate's own default value — `write_to_buffer` stores the fields at the
SET-command offsets 4-9, while `from_buffer` reads the GET-response offsets
12-15/29/30, so decoding the encoded buffer does not return the original. -/
theorem usb_parameters_roundtrip_fails :
    UsbParameters.from_buffer (UsbParameters.write_to_buffer
      ⟨0x04d8, 0x00de, .hostPowered, false, 50⟩ zeroBuffer) ≠
      .ok ⟨0x04d8, 0x00de, .hostPowered, false, 50⟩ := by
  decide

/-- C2 amended: for every `UsbParameters` value, decoding a zeroed 64-byte
buffer written by `write_to_buffer` fails with an invalid `power_option`
(raw byte 0), because the encoder targets the SET-command layout
(offsets 4-9) while the decoder reads the GET-response layout (offsets
12-15, 29, 30), whose power-option byte the encoder leaves zero; the
round-trip law does not hold for `UsbParameters`. -/
theorem usb_parameters_decode_after_encode (u : UsbParameters) :
    UsbParameters.from_buffer (u.write_to_buffer zeroBuffer) =
      .error ("power_option", 0) := by
  simp [UsbParameters.from_buffer, UsbParameters.write_to_buffer, setByte, zeroBuffer,
    UsbPowerOption.from_u8, eBind, mapErr]

set_option maxHeartbeats 2000000 in
/-- C3: for every command code and 64-byte response frame, `do_command`
(after a successful transport exchange delivering that frame) returns the
command-code-mismatch error exactly when response byte 0 differs from the
request code; otherwise it succeeds exactly when byte 1 is 0x00, and maps
byte 1 values 0xF7, 0xF8, 0xF9, 0xFA, 0xFB, 0xFC, 0xFD to the errors
Unavailable, Busy, UnknownCommandCode, EepromWriteFailure, AccessDenied,
AccessRejected, AccessDeniedRetry respectively, and every other value `v`
to `UnknownErrorCode v`. -/
theorem do_command_status_mapping (code : Nat) (f : Buffer → Buffer)
    (w rs : List Buffer) (res : Buffer) :
    ∃ o t', do_command ⟨w, res :: rs⟩ code (fun b => some (f b)) = some (o, t') ∧
      (o = .error (.commandCode code (res 0)) ↔ res 0 ≠ code) ∧
      (res 0 = code →
        ((o = .ok res ↔ res 1 = 0x00) ∧
         (res 1 = 0xf7 → o = .error .unavailable) ∧
         (res 1 = 0xf8 → o = .error .busy) ∧
         (res 1 = 0xf9 → o = .error (.unknownCommandCode code)) ∧
         (res 1 = 0xfa → o = .error .eepromWrite) ∧
         (res 1 = 0xfb → o = .error .accessDenied) ∧
         (res 1 = 0xfc → o = .error .accessRejected) ∧
         (res 1 = 0xfd → o = .error .accessDeniedRetry) ∧
         (res 1 ∉ ([0x00, 0xf7, 0xf8, 0xf9, 0xfa, 0xfb, 0xfc, 0xfd] : List Nat) →
           o = .error (.unknownErrorCode (res 1))))) := by
  simp only [do_command, commandResponse]
  split_ifs with h0 h1 h2 h3 h4 h5 h6 h7 h8 <;> refine ⟨_, _, rfl, ?_⟩
  · exact ⟨⟨fun _ hc => h0 hc.symm, fun _ => rfl⟩, fun hc => absurd hc.symm h0⟩
  all_goals simp_all

/-- Witness for C3 at a concrete response reporting the Busy status. -/
theorem do_command_status_mapping_witness :
    ∃ t', do_command ⟨[], [bufferOfList [0x42, 0xf8]]⟩ 0x42 (fun b => some b) =
      some (.error .busy, t') := by
  obtain ⟨o, t', heq, hiff, himp⟩ :=
    do_command_status_mapping 0x42 (fun b => b) [] [] (bufferOfList [0x42, 0xf8])
  obtain ⟨-, -, hbusy, -⟩ := himp rfl
  rw [hbusy rfl] at heq
  exact ⟨t', heq⟩

/-- C4: one step of the Continue phase of the chunked SPI transfer driver.
If the single-frame transfer of the current chunk reports `Busy`, the loop
recurses with the same input cursor and the same output accumulator (so the
identical chunk is re-sent next iteration) and emits no error; any other
error is returned immediately, with no cursor advance and no output
appended. -/
theorem spi_transfer_loop_busy_retry (fuel : Nat) (t t' : Transport) (data buf : List Nat)
    (e : Mcp2210Error)
    (h : spi_transfer t (data.take (min data.length 60)) = some (.error e, t')) :
    (e = .busy → spiTransferLoop (fuel + 1) t data buf = spiTransferLoop fuel t' data buf) ∧
    (e ≠ .busy → spiTransferLoop (fuel + 1) t data buf = some (.error e, t')) := by
  constructor
  · intro hbusy
    subst hbusy
    simp [spiTransferLoop, h]
  · intro hne
    simp [spiTransferLoop, h, hne]

/-- Witness for C4 at a concrete device that reports Busy. -/
theorem spi_transfer_loop_busy_retry_witness :
    ∃ t', spi_transfer ⟨[], [bufferOfList [0x42, 0xf8]]⟩
        (([1, 2] : List Nat).take (min ([1, 2] : List Nat).length 60)) =
        some (.error .busy, t') ∧
      spiTransferLoop 1 ⟨[], [bufferOfList [0x42, 0xf8]]⟩ [1, 2] [] =
        spiTransferLoop 0 t' [1, 2] [] := by
  obtain ⟨t', h⟩ : ∃ t', spi_transfer ⟨[], [bufferOfList [0x42, 0xf8]]⟩
      (([1, 2] : List Nat).take (min ([1, 2] : List Nat).length 60)) =
      some (.error .busy, t') := ⟨_, rfl⟩
  exact ⟨t', h, (spi_transfer_loop_busy_retry 0 _ t' [1, 2] [] .busy h).1 rfl⟩

/-- C7: driving `spi_transfer_to_end` with input `[0xaa, 0x55]` against a
loopback device that answers the first exchange with status Started (no
data) and the second with status Finished carrying the echoed bytes
succeeds and accumulates exactly `[0xaa, 0x55]`. -/
theorem loopback_transfer :
    ∃ t', spi_transfer_to_end 2 ⟨[], [bufferOfList [0x42, 0x00, 0x00, 0x20],
        bufferOfList [0x42, 0x00, 0x02, 0x10, 0xaa, 0x55]]⟩ [0xaa, 0x55] [] =
      some (.ok [0xaa, 0x55], t') :=
  ⟨_, rfl⟩

/-- C8: the get-chip-status operation, fed the response frame beginning
`[0x10, 0x00, 0x01, 0x02, 42, 0x01]` (remaining bytes zero), returns a
`ChipStatus` with bus-release-pending false (negation of raw byte 2),
bus owner ExternalMaster, password attempt count 42 and password guessed
true, and the command frame it wrote is all zeros except byte 0 = 0x10
(`setByte zeroBuffer 0 0x10` is by definition the all-zero frame with byte
0 set to 0x10). -/
theorem get_chip_status_decode :
    get_chip_status ⟨[], [bufferOfList [0x10, 0x00, 0x01, 0x02, 42, 0x01]]⟩ =
      some (.ok ⟨false, .externalMaster, 42, true⟩,
        ⟨[setByte zeroBuffer 0 0x10], []⟩) := rfl

/-- C1 (code bug): `send_access_password` copies the 8-byte password into
`cmd[4..11]`, a 7-byte destination slice, so `copy_from_slice` panics for
every 8-byte password; no frame is ever built and no exchange performed,
contradicting the spec's "8 bytes at offset 4". -/
theorem send_access_password_panics (t : Transport) (password : List Nat)
    (h : password.length = 8) :
    send_access_password t password = none := by
  simp [send_access_password, do_command, copyFromSlice, h]

/-- Witness for C1 at a concrete password. -/
theorem send_access_password_panics_witness :
    send_access_password ⟨[], []⟩ [1, 2, 3, 4, 5, 6, 7, 8] = none :=
  send_access_password_panics ⟨[], []⟩ [1, 2, 3, 4, 5, 6, 7, 8] rfl

/-- C6: input validation precedes all I/O.  A payload longer than 60 bytes
makes the single-frame SPI transfer return the payload-size error carrying
the actual length, and a product/vendor name of more than 29 UTF-16 code
units makes the string setters return the string-size error carrying the
actual count — in each case with the transport state unchanged (nothing
written, nothing read). -/
theorem validation_before_exchange :
    (∀ t data, 60 < data.length →
      spi_transfer t data = some (.error (.payloadSize data.length), t)) ∧
    (∀ t name, 29 < (encodeUtf16 name).length →
      set_nvram_usb_product_name t name =
        some (.error (.stringSize (encodeUtf16 name).length), t)) ∧
    (∀ t name, 29 < (encodeUtf16 name).length →
      set_nvram_usb_vendor_name t name =
        some (.error (.stringSize (encodeUtf16 name).length), t)) := by
  refine ⟨fun t data h => ?_, fun t name h => ?_, fun t name h => ?_⟩
  · simp [spi_transfer, h]
  · simp [set_nvram_usb_product_name, h]
  · simp [set_nvram_usb_vendor_name, h]

/-- Witness for C6: a 61-byte payload and 30-code-unit names. -/
theorem validation_before_exchange_witness :
    spi_transfer ⟨[], []⟩ (List.replicate 61 0) = some (.error (.payloadSize 61), ⟨[], []⟩) ∧
    set_nvram_usb_product_name ⟨[], []⟩ (List.replicate 30 65) =
      some (.error (.stringSize 30), ⟨[], []⟩) ∧
    set_nvram_usb_vendor_name ⟨[], []⟩ (List.replicate 30 66) =
      some (.error (.stringSize 30), ⟨[], []⟩) := by
  refine ⟨?_, ?_, ?_⟩
  · exact validation_before_exchange.1 ⟨[], []⟩ (List.replicate 61 0) (by simp)
  · exact validation_before_exchange.2.1 ⟨[], []⟩ (List.replicate 30 65) (by decide)
  · exact validation_before_exchange.2.2 ⟨[], []⟩ (List.replicate 30 66) (by decide)

/-- C9: `spi_transfer` trusts response byte 2 as the inbound data length.
After a successful exchange (byte 0 echoes 0x42, byte 1 is 0x00) with a
valid status byte, if byte 2 is at most 60 the returned data view is
exactly the first byte-2-many bytes starting at offset 4; if byte 2 exceeds
60 the slice `&res[4..][..miso_len]` is out of bounds and the operation
panics (`none`) instead of returning an error. -/
theorem spi_transfer_miso_len (w rs : List Buffer) (res : Buffer) (data : List Nat)
    (hlen : data.length ≤ 60) (h0 : res 0 = 0x42) (h1 : res 1 = 0x00) :
    (∀ st, SpiTransferStatus.from_u8 (res 3) = .ok st → res 2 ≤ 60 →
      ∃ c, spi_transfer ⟨w, res :: rs⟩ data =
        some (.ok ⟨(List.range (res 2)).map (fun i => res (4 + i)), st⟩, ⟨w ++ [c], rs⟩)) ∧
    (60 < res 2 → spi_transfer ⟨w, res :: rs⟩ data = none) := by
  have hng : ¬ (data.length > 60) := by omega
  obtain ⟨c, hc⟩ : ∃ c, copyFromSlice (setByte (setByte zeroBuffer 0 0x42) 1
      (min data.length 60)) 4 (4 + min data.length 60) (data.take (min data.length 60)) =
      some c := by
    rw [copyFromSlice, if_pos]
    · exact ⟨_, rfl⟩
    · exact ⟨by omega, by omega, by rw [List.length_take]; omega⟩
  constructor
  · intro st hst h2
    refine ⟨c, ?_⟩
    have hslice : sliceBytes res 4 (res 2) =
        some ((List.range (res 2)).map fun i => res (4 + i)) := by
      rw [sliceBytes, if_pos (by omega)]
    simp [spi_transfer, hng, do_command, hc, commandResponse, h0, h1, hslice, hst]
  · intro h2
    have hslice : sliceBytes res 4 (res 2) = none := by
      rw [sliceBytes, if_neg (by omega)]
    simp [spi_transfer, hng, do_command, hc, commandResponse, h0, h1, hslice]

/-- Witness for C9: a response announcing 2 data bytes yields exactly those
two bytes; a response announcing 61 data bytes panics. -/
theorem spi_transfer_miso_len_witness :
    (∃ c, spi_transfer ⟨[], [bufferOfList [0x42, 0x00, 2, 0x30, 9, 8]]⟩ [7] =
      some (.ok ⟨[9, 8], .pending⟩, ⟨[] ++ [c], []⟩)) ∧
    spi_transfer ⟨[], [bufferOfList [0x42, 0x00, 61, 0x30]]⟩ [7] = none := by
  constructor
  · obtain ⟨c, hc⟩ := (spi_transfer_miso_len [] [] (bufferOfList [0x42, 0x00, 2, 0x30, 9, 8])
      [7] (by decide) rfl rfl).1 .pending rfl (by decide)
    exact ⟨c, hc⟩
  · exact (spi_transfer_miso_len [] [] (bufferOfList [0x42, 0x00, 61, 0x30]) [7]
      (by decide) rfl rfl).2 (by decide)

/-- Helper: `chunkPairs` succeeds exactly on even-length lists — a trailing
one-byte chunk makes the `chunk[1]` access a panic. -/
theorem chunkPairs_parity (n : Nat) : ∀ l : List Nat, l.length = n →
    (l.length % 2 = 0 → ∃ us, chunkPairs l = some us) ∧
    (l.length % 2 = 1 → chunkPairs l = none) := by
  induction n using Nat.strong_induction_on with
  | _ n ih =>
    intro l hlen
    match l with
    | [] => exact ⟨fun _ => ⟨[], rfl⟩, fun h => by simp at h⟩
    | [a] => exact ⟨fun h => by simp at h, fun _ => rfl⟩
    | a :: b :: rest =>
      have hlr : rest.length = n - 2 := by
        simp [List.length_cons] at hlen
        omega
      have hn2 : n - 2 < n := by
        simp [List.length_cons] at hlen
        omega
      have hr := ih (n - 2) hn2 rest hlr
      constructor
      · intro h
        have he : rest.length % 2 = 0 := by
          simp [List.length_cons] at h
          omega
        obtain ⟨us, hus⟩ := hr.1 he
        exact ⟨as_u16 a b :: us, by simp [chunkPairs, hus]⟩
      · intro h
        have ho : rest.length % 2 = 1 := by
          simp [List.length_cons] at h
          omega
        have := hr.2 ho
        simp [chunkPairs, this]

/-- C10: the NVRAM string getters trust the length byte at response offset
4.  After a successful exchange (byte 0 echoes 0x61, byte 1 is 0x00, byte 2
echoes the sub-command code), the getter returns a well-defined string when
that byte is even and between 2 and 60 inclusive; a byte below 2
(`u8` subtraction underflow — a wrapped length far past the frame), above
60 (out-of-bounds slice), or odd (out-of-bounds access in the final 2-byte
chunk) makes the operation panic (`none`) rather than return a decode
error. -/
theorem nvram_string_getter_length_byte (w rs : List Buffer) (res : Buffer)
    (h0 : res 0 = 0x61) (h1 : res 1 = 0x00) (hb : res 4 < 256) :
    (res 2 = 0x40 →
      (2 ≤ res 4 → res 4 ≤ 60 → res 4 % 2 = 0 →
        ∃ units t', get_nvram_usb_product_name ⟨w, res :: rs⟩ = some (.ok units, t')) ∧
      (res 4 < 2 ∨ 60 < res 4 ∨ res 4 % 2 = 1 →
        get_nvram_usb_product_name ⟨w, res :: rs⟩ = none)) ∧
    (res 2 = 0x50 →
      (2 ≤ res 4 → res 4 ≤ 60 → res 4 % 2 = 0 →
        ∃ units t', get_nvram_usb_vendor_name ⟨w, res :: rs⟩ = some (.ok units, t')) ∧
      (res 4 < 2 ∨ 60 < res 4 ∨ res 4 % 2 = 1 →
        get_nvram_usb_vendor_name ⟨w, res :: rs⟩ = none)) := by
  constructor
  · intro h2
    have hsub : do_sub_command ⟨w, res :: rs⟩ 0x61 0x40 (fun cmd => some cmd) =
        some (.ok res, ⟨w ++ [setByte (setByte zeroBuffer 0 0x61) 1 0x40], rs⟩) := by
      simp [do_sub_command, do_command, commandResponse, h0, h1, h2]
    constructor
    · intro hge hle heven
      have hslice : sliceBytes res 6 ((res 4 + 254) % 256) =
          some ((List.range ((res 4 + 254) % 256)).map fun i => res (6 + i)) := by
        rw [sliceBytes, if_pos (by omega)]
      obtain ⟨us, hus⟩ := (chunkPairs_parity ((res 4 + 254) % 256)
        ((List.range ((res 4 + 254) % 256)).map fun i => res (6 + i)) (by simp)).1
        (by simp; omega)
      refine ⟨us.take ((res 4 + 254) % 256 / 2),
        ⟨w ++ [setByte (setByte zeroBuffer 0 0x61) 1 0x40], rs⟩, ?_⟩
      simp [get_nvram_usb_product_name, hsub, hslice, hus]
    · intro hbad
      by_cases hin : 6 + (res 4 + 254) % 256 ≤ 64
      · have hslice : sliceBytes res 6 ((res 4 + 254) % 256) =
            some ((List.range ((res 4 + 254) % 256)).map fun i => res (6 + i)) := by
          rw [sliceBytes, if_pos hin]
        have hchunk := (chunkPairs_parity ((res 4 + 254) % 256)
          ((List.range ((res 4 + 254) % 256)).map fun i => res (6 + i)) (by simp)).2
          (by simp; rcases hbad with h | h | h <;> omega)
        simp [get_nvram_usb_product_name, hsub, hslice, hchunk]
      · have hslice : sliceBytes res 6 ((res 4 + 254) % 256) = none := by
          rw [sliceBytes, if_neg hin]
        simp [get_nvram_usb_product_name, hsub, hslice]
  · intro h2
    have hsub : do_sub_command ⟨w, res :: rs⟩ 0x61 0x50 (fun cmd => some cmd) =
        some (.ok res, ⟨w ++ [setByte (setByte zeroBuffer 0 0x61) 1 0x50], rs⟩) := by
      simp [do_sub_command, do_command, commandResponse, h0, h1, h2]
    constructor
    · intro hge hle heven
      have hslice : sliceBytes res 6 ((res 4 + 254) % 256) =
          some ((List.range ((res 4 + 254) % 256)).map fun i => res (6 + i)) := by
        rw [sliceBytes, if_pos (by omega)]
      obtain ⟨us, hus⟩ := (chunkPairs_parity ((res 4 + 254) % 256)
        ((List.range ((res 4 + 254) % 256)).map fun i => res (6 + i)) (by simp)).1
        (by simp; omega)
      refine ⟨us.take ((res 4 + 254) % 256 / 2),
        ⟨w ++ [setByte (setByte zeroBuffer 0 0x61) 1 0x50], rs⟩, ?_⟩
      simp [get_nvram_usb_vendor_name, hsub, hslice, hus]
    · intro hbad
      by_cases hin : 6 + (res 4 + 254) % 256 ≤ 64
      · have hslice : sliceBytes res 6 ((res 4 + 254) % 256) =
            some ((List.range ((res 4 + 254) % 256)).map fun i => res (6 + i)) := by
          rw [sliceBytes, if_pos hin]
        have hchunk := (chunkPairs_parity ((res 4 + 254) % 256)
          ((List.range ((res 4 + 254) % 256)).map fun i => res (6 + i)) (by simp)).2
          (by simp; rcases hbad with h | h | h <;> omega)
        simp [get_nvram_usb_vendor_name, hsub, hslice, hchunk]
      · have hslice : sliceBytes res 6 ((res 4 + 254) % 256) = none := by
          rw [sliceBytes, if_neg hin]
        simp [get_nvram_usb_vendor_name, hsub, hslice]

/-- Witness for C10: length byte 6 decodes, length byte 61 panics, odd
length byte 5 panics. -/
theorem nvram_string_getter_length_byte_witness :
    (∃ units t', get_nvram_usb_product_name
        ⟨[], [bufferOfList [0x61, 0, 0x40, 0, 6, 0, 65, 0, 66, 0]]⟩ =
        some (.ok units, t')) ∧
    get_nvram_usb_product_name ⟨[], [bufferOfList [0x61, 0, 0x40, 0, 61]]⟩ = none ∧
    get_nvram_usb_vendor_name ⟨[], [bufferOfList [0x61, 0, 0x50, 0, 5]]⟩ = none := by
  refine ⟨?_, ?_, ?_⟩
  · exact ((nvram_string_getter_length_byte [] [] _ rfl rfl (by decide)).1 rfl).1
      (by decide) (by decide) (by decide)
  · exact ((nvram_string_getter_length_byte [] [] _ rfl rfl (by decide)).1 rfl).2
      (Or.inr (Or.inl (by decide)))
  · exact ((nvram_string_getter_length_byte [] [] _ rfl rfl (by decide)).2 rfl).2
      (Or.inr (Or.inr (by decide)))

end Mcp2210
